import Mathlib

/-!
# go-gin-swagge-crud: the five `/users` handlers of `main.go`

A shallow embedding of `createUser`, `getUsers`, `getUser`, `updateUser` and
`deleteUser` together with the pieces of `gin` (JSON binding) and
`gorm.io/gorm` over SQLite (`Create`, `Find`, `First`, `Save`, `Delete`) that
the handlers call, followed by theorems about them.

Conventions of the embedding:

* the `users` table is a list of rows plus SQLite's id allocator;
* a handler is a function from the store (and the request) to the store
  after the call and the HTTP response;
* the clock (`time.Now()` inside gorm) is an explicit argument `now`;
* a request body is represented by what `encoding/json` makes of it when it
  decodes into a `User`: the fields it assigns, and the error if any;
* a path id that `strconv.Atoi` rejects is handed by gorm to SQLite as a raw
  `WHERE` condition; SQLite's reading of such a condition is the argument
  `sqlite` of the lookups.
-/

namespace GinCrud

/-! ## Data model (`main.go`, lines 17-24) -/

/-- An instant (`time.Time`); `0` is Go's zero time, the value gorm tests with
`IsZero` to decide whether a timestamp column still has to be filled in. -/
abbrev Time := Int

/-- The `User` struct. `ID` is a Go `uint`; `DeletedAt` is a `*time.Time`
(`none` is the nil pointer, omitted from the JSON by `omitempty`). -/
structure User where
  ID : Nat
  CreatedAt : Time
  UpdatedAt : Time
  DeletedAt : Option Time
  Name : String
  Email : String
deriving DecidableEq, Repr

/-- The zero value of `User`, as produced by `var user User`. -/
def User.zero : User := ⟨0, 0, 0, none, "", ""⟩

/-! ## HTTP responses -/

/-- The constant `http.StatusOK`. -/
def StatusOK : Nat := 200
/-- The constant `http.StatusNoContent`. -/
def StatusNoContent : Nat := 204
/-- The constant `http.StatusBadRequest`. -/
def StatusBadRequest : Nat := 400
/-- The constant `http.StatusNotFound`. -/
def StatusNotFound : Nat := 404

/-- What a handler hands to `c.JSON`: a user, a slice of users, or the map
with the single key `error`. -/
inductive Payload where
  | user (u : User)
  | users (us : List User)
  | error (msg : String)
deriving DecidableEq, Repr

/-- An HTTP response: status code and JSON body; `body = none` is the empty
body left by `c.Status`. -/
structure Response where
  status : Nat
  body : Option Payload
deriving DecidableEq, Repr

/-- The response `c.JSON(code, obj)`. -/
def JSON (code : Nat) (obj : Payload) : Response := ⟨code, some obj⟩

/-- The response `c.Status(code)`: the code and no body. -/
def Status (code : Nat) : Response := ⟨code, none⟩

/-! ## JSON binding (`c.ShouldBindJSON(&user)`) -/

/-- The fields a JSON document assigns when `encoding/json` decodes it into a
`User`: `none` leaves the field of the destination as it was (key absent, or
`null` for a non-pointer field), `some v` stores `v`. For the pointer field
`DeletedAt`, `some none` is an explicit `null`. -/
structure Patch where
  ID : Option Nat
  CreatedAt : Option Time
  UpdatedAt : Option Time
  DeletedAt : Option (Option Time)
  Name : Option String
  Email : Option String
deriving DecidableEq, Repr

/-- The patch of a document that assigns nothing, such as the empty object. -/
def Patch.empty : Patch := ⟨none, none, none, none, none, none⟩

/-- Decoding overlays the document on the destination struct. -/
def Patch.apply (p : Patch) (u : User) : User :=
  { ID := p.ID.getD u.ID
    CreatedAt := p.CreatedAt.getD u.CreatedAt
    UpdatedAt := p.UpdatedAt.getD u.UpdatedAt
    DeletedAt := p.DeletedAt.getD u.DeletedAt
    Name := p.Name.getD u.Name
    Email := p.Email.getD u.Email }

/-- The errors `ShouldBindJSON` can return for this struct (it carries no
`binding` tags, so validation never fails): gin's own error for a missing
body, the decoder's end-of-input and syntax errors, a JSON value of the wrong
type, and the two errors of `time.Time.UnmarshalJSON`. -/
inductive BindError where
  | invalidRequest
  | eof
  | unexpectedEOF
  | invalidCharacter (c : Char) (context : String)
  | unmarshalType (value : String) (field : Option String) (typ : String)
  | timeNotString
  | timeParse (value : String) (detail : String)
deriving DecidableEq, Repr

/-- Go's `quoteChar` for an ordinary character: the character between
apostrophes. -/
def quoteChar (c : Char) : String := "\x27" ++ String.singleton c ++ "\x27"

/-- The text of `err.Error()`. -/
def BindError.Error : BindError → String
  | .invalidRequest => "invalid request"
  | .eof => "EOF"
  | .unexpectedEOF => "unexpected EOF"
  | .invalidCharacter c context => "invalid character " ++ quoteChar c ++ " " ++ context
  | .unmarshalType value none typ =>
      "json: cannot unmarshal " ++ value ++ " into Go value of type " ++ typ
  | .unmarshalType value (some field) typ =>
      "json: cannot unmarshal " ++ value ++ " into Go struct field " ++ field ++ " of type " ++ typ
  | .timeNotString => "Time.UnmarshalJSON: input is not a JSON string"
  | .timeParse value detail => "parsing time " ++ value ++ detail

/-- A request body, seen through the decoder: either it cannot be decoded into
a `User` (`rejected`, with the error and whatever fields were assigned before
the decoder gave up), or it can (`accepted`). -/
inductive Body where
  | rejected (err : BindError) (bound : Patch)
  | accepted (bound : Patch)
deriving DecidableEq, Repr

/-- The call `c.ShouldBindJSON(&user)`: the struct after the call and the
error. A rejected body may already have written some fields. -/
def ShouldBindJSON (body : Body) (obj : User) : User × Option BindError :=
  match body with
  | .rejected err bound => (bound.apply obj, some err)
  | .accepted bound => (bound.apply obj, none)

/-- The body `"not-json"`: a JSON string, which does not decode into a struct. -/
def notJsonBody : Body := .rejected (.unmarshalType "string" none "main.User") Patch.empty

/-! ## The store: the `users` table in SQLite, driven by gorm -/

/-- The largest rowid of SQLite, `2^63 - 1`. The embedding follows ids up to
this bound. A Go `uint` above it has no rowid of its own (`database/sql` hands
SQLite signed 64-bit integers): after a write under such an id the struct
comes back with `ID` zero, and what the table then holds is not followed (it
is taken to stay as it was). -/
def maxRowid : Nat := 9223372036854775807

/-- The `users` table: its rows, the high-water mark SQLite keeps in
`sqlite_sequence`, and whether the id column was declared `AUTOINCREMENT`
(this depends on the version of the gorm SQLite driver). -/
structure DB where
  rows : List User
  seq : Nat
  autoinc : Bool
deriving DecidableEq, Repr

/-- The largest id among the rows, `0` for no rows. -/
def maxID (rows : List User) : Nat := rows.foldr (fun r m => max r.ID m) 0

/-- The id SQLite gives to a row inserted without one: one more than the
largest rowid in the table, and with `AUTOINCREMENT` also more than every
rowid the table ever held. -/
def DB.nextID (db : DB) : Nat :=
  max (if db.autoinc then db.seq else 0) (maxID db.rows) + 1

/-- The table with a row added. -/
def DB.push (db : DB) (u : User) : DB :=
  { db with rows := db.rows ++ [u], seq := if db.autoinc then max db.seq u.ID else db.seq }

/-- What gorm does to the tracked timestamps of a struct it is about to
insert: `CreatedAt` and `UpdatedAt` are set to the current time where they are
zero and kept otherwise. -/
def fillTimestamps (now : Time) (user : User) : User :=
  { user with
    CreatedAt := if user.CreatedAt = 0 then now else user.CreatedAt
    UpdatedAt := if user.UpdatedAt = 0 then now else user.UpdatedAt }

/-- The call `db.Create(&user)`: the store and the struct after the call.
The timestamps are filled in first (`fillTimestamps`). A zero `ID` is left to
SQLite, which assigns `nextID` and gorm writes it back into the struct; a
non-zero `ID` is inserted as given, which fails when the primary key is taken.
A failed insert leaves the table as it was; the handlers do not look at the
error. Two cases are at the edge of the embedding: an `ID` above `maxRowid`,
after which the struct has `ID` zero (see `maxRowid`), and a table whose
rowids are used up (`nextID` above `maxRowid`: SQLite reports a full table for
an `AUTOINCREMENT` column and otherwise tries unused rowids at random), which
is taken as a failed insert. -/
def Create (db : DB) (now : Time) (user : User) : DB × User :=
  let u : User := fillTimestamps now user
  if u.ID = 0 then
    if db.nextID ≤ maxRowid then
      let row : User := { u with ID := db.nextID }
      (db.push row, row)
    else (db, u)
  else if maxRowid < u.ID then (db, { u with ID := 0 })
  else if db.rows.all (fun r => r.ID ≠ u.ID) then (db.push u, u)
  else (db, u)

/-- Rows in rowid order, the order of a table scan and of `ORDER BY id`. -/
def orderByID (rows : List User) : List User :=
  rows.insertionSort (fun a b => a.ID ≤ b.ID)

/-- The call `db.Find(&users)`: `SELECT * FROM users`, a scan of the table in
rowid order. gorm.io/gorm adds the filter `deleted_at IS NULL` only for a
field of type `gorm.DeletedAt`; the struct has a `*time.Time` instead, so every
row is returned. -/
def Find (db : DB) : List User := orderByID db.rows

/-- A digit string read in base ten. -/
def digitsToNat (ds : List Char) : Nat :=
  ds.foldl (fun a c => 10 * a + (c.toNat - 48)) 0

/-- The digits of `strconv.Atoi` after the sign, on a 64-bit platform. -/
def atoiDigits (ds : List Char) (neg : Bool) : Option Int :=
  if ds.isEmpty || !ds.all Char.isDigit then none
  else if neg then
    (if digitsToNat ds ≤ maxRowid + 1 then some (-(digitsToNat ds : Int)) else none)
  else
    (if digitsToNat ds ≤ maxRowid then some (digitsToNat ds : Int) else none)

/-- Go's `strconv.Atoi`: an optional sign and at least one decimal digit,
within the range of `int`. -/
def atoi (s : String) : Option Int :=
  match s.toList with
  | '+' :: ds => atoiDigits ds false
  | '-' :: ds => atoiDigits ds true
  | ds => atoiDigits ds false

/-- The `WHERE` condition gorm builds for `db.First(&user, id)` with a string
`id`: a string that `strconv.Atoi` accepts is compared with the primary key;
the empty string adds no condition; any other string is passed to SQLite as
SQL, and `sqlite` tells whether SQLite accepts it (`none` is an SQL error) and
which rows it selects. -/
def Where (sqlite : String → Option (User → Bool)) (id : String) : Option (User → Bool) :=
  match atoi id with
  | some n => some (fun u => decide ((u.ID : Int) = n))
  | none => if id = "" then some (fun _ => true) else sqlite id

/-- The call `db.First(&user, id)`:
`SELECT * FROM users WHERE <cond> ORDER BY id LIMIT 1`. `none` is an error
(`ErrRecordNotFound` or an error of SQLite). No soft-delete filter is added,
see `Find`. The statement is a `SELECT`: it reads the table and leaves it as
it is. -/
def First (sqlite : String → Option (User → Bool)) (db : DB) (id : String) : Option User :=
  match Where sqlite id with
  | none => none
  | some cond => (orderByID (db.rows.filter cond)).head?

/-- The call `db.Save(&user)`. With a zero primary key it is `Create`.
Otherwise gorm sets `UpdatedAt` to the current time and updates every column
(zero values included) of the row whose id is `user.ID`; when no row has that
id it inserts the struct instead. An `ID` above `maxRowid` is at the edge of
the embedding: the struct comes back with `ID` zero, see `maxRowid`. -/
def Save (db : DB) (now : Time) (user : User) : DB × User :=
  if user.ID = 0 then Create db now user
  else
    let u : User := { user with UpdatedAt := now }
    if maxRowid < u.ID then (db, { u with ID := 0 })
    else if db.rows.any (fun r => r.ID = u.ID) then
      ({ db with rows := db.rows.map (fun r => if r.ID = u.ID then u else r) }, u)
    else Create db now u

/-- The call `db.Delete(&user)`: `DELETE FROM users WHERE id = user.ID`.
gorm.io/gorm turns a delete into an update of the deletion timestamp only for
a field of type `gorm.DeletedAt`; the struct has a `*time.Time` instead, so
the statement stays a `DELETE` and the row is removed. With a zero id gorm
has no condition to delete by and refuses (`ErrMissingWhereClause`); the
handler does not look at the error. An `ID` above `maxRowid` is at the edge
of the embedding, see `maxRowid`. -/
def Delete (db : DB) (user : User) : DB :=
  if user.ID = 0 ∨ maxRowid < user.ID then db
  else { db with rows := db.rows.filter (fun r => r.ID ≠ user.ID) }

/-! ## The handlers (`main.go`, lines 88-173) -/

/-- The body of every 404 answer. -/
def userNotFound : Response := JSON StatusNotFound (.error "User not found")

/-- Handler `createUser`. -/
def createUser (db : DB) (now : Time) (body : Body) : DB × Response :=
  match ShouldBindJSON body User.zero with
  | (_, some err) => (db, JSON StatusBadRequest (.error err.Error))
  | (user, none) =>
    let (db1, user1) := Create db now user
    (db1, JSON StatusOK (.user user1))

/-- Handler `getUsers`. -/
def getUsers (db : DB) : DB × Response :=
  (db, JSON StatusOK (.users (Find db)))

/-- Handler `getUser`. -/
def getUser (sqlite : String → Option (User → Bool)) (db : DB) (id : String) : DB × Response :=
  match First sqlite db id with
  | none => (db, userNotFound)
  | some user => (db, JSON StatusOK (.user user))

/-- Handler `updateUser`. -/
def updateUser (sqlite : String → Option (User → Bool)) (db : DB) (now : Time) (id : String)
    (body : Body) : DB × Response :=
  match First sqlite db id with
  | none => (db, userNotFound)
  | some user =>
    match ShouldBindJSON body user with
    | (_, some err) => (db, JSON StatusBadRequest (.error err.Error))
    | (user1, none) =>
      let (db1, user2) := Save db now user1
      (db1, JSON StatusOK (.user user2))

/-- Handler `deleteUser`. -/
def deleteUser (sqlite : String → Option (User → Bool)) (db : DB) (id : String) : DB × Response :=
  match First sqlite db id with
  | none => (db, userNotFound)
  | some user => (Delete db user, Status StatusNoContent)

/-- The rows the lookup of `id` selects, before `ORDER BY id LIMIT 1`; no row
when SQLite rejects the condition. The id matches no record when this list is
empty. -/
def selected (sqlite : String → Option (User → Bool)) (db : DB) (id : String) : List User :=
  match Where sqlite id with
  | none => []
  | some cond => db.rows.filter cond

/-! ## Sample data -/

/-- An SQLite that rejects every raw condition (as it does for a condition
naming an unknown column). -/
def rejectRaw : String → Option (User → Bool) := fun _ => none

/-- A reading of SQLite for raw conditions that are plain decimal literals:
SQLite takes a number for true when it is not zero, so such a condition holds
of every row or of none. Conditions of any other form are not read here and
count as rejected. -/
def literalRaw : String → Option (User → Bool) := fun s =>
  if s.toList ≠ [] ∧ s.toList.all Char.isDigit = true then
    some (fun _ => decide (digitsToNat s.toList ≠ 0))
  else none

/-- Record 1. -/
def ada : User := ⟨1, 10, 10, none, "Ada", "ada@x.io"⟩
/-- Record 2. -/
def bob : User := ⟨2, 20, 20, none, "Bob", "bob@x.io"⟩

/-- The table with no rows. -/
def emptyDB : DB := ⟨[], 0, false⟩
/-- The table holding record 1. -/
def adaDB : DB := ⟨[ada], 0, false⟩
/-- The table holding records 1 and 2. -/
def adaBobDB : DB := ⟨[ada, bob], 0, false⟩

/-! ## Lemmas on the gateway -/

theorem mem_orderByID (u : User) (l : List User) : u ∈ orderByID l ↔ u ∈ l :=
  (List.perm_insertionSort _ l).mem_iff

theorem orderByID_eq_nil (l : List User) : orderByID l = [] ↔ l = [] := by
  constructor
  · intro h
    have hp := List.perm_insertionSort (fun a b : User => a.ID ≤ b.ID) l
    unfold orderByID at h
    rw [h] at hp
    exact List.Perm.eq_nil hp.symm
  · rintro rfl; rfl

theorem First_eq (sqlite : String → Option (User → Bool)) (db : DB) (id : String) :
    First sqlite db id = (orderByID (selected sqlite db id)).head? := by
  unfold First selected
  cases Where sqlite id <;> rfl

theorem First_eq_none_iff (sqlite : String → Option (User → Bool)) (db : DB) (id : String) :
    First sqlite db id = none ↔ selected sqlite db id = [] := by
  rw [First_eq, List.head?_eq_none_iff, orderByID_eq_nil]

theorem First_mem (sqlite : String → Option (User → Bool)) (db : DB) (id : String) (u : User)
    (h : First sqlite db id = some u) : u ∈ selected sqlite db id := by
  rw [First_eq] at h
  exact (mem_orderByID u _).1 (List.mem_of_mem_head? h)

theorem Error_ne_empty (err : BindError) : err.Error ≠ "" := by
  cases err with
  | unmarshalType v f t => cases f <;> simp [BindError.Error, String.ext_iff]
  | _ => simp [BindError.Error, String.ext_iff, quoteChar]

theorem le_maxID {rows : List User} {r : User} (h : r ∈ rows) : r.ID ≤ maxID rows := by
  induction rows with
  | nil => cases h
  | cons a t ih =>
    change r.ID ≤ max a.ID (maxID t)
    rcases List.mem_cons.1 h with rfl | h
    · exact le_max_left _ _
    · exact le_trans (ih h) (le_max_right _ _)

theorem lt_nextID {db : DB} {r : User} (h : r ∈ db.rows) : r.ID < db.nextID := by
  have := le_maxID h
  unfold DB.nextID
  omega

theorem atoiDigits_nat_le {ds : List Char} {neg : Bool} {n : Nat}
    (h : atoiDigits ds neg = some (n : Int)) : n ≤ maxRowid := by
  unfold atoiDigits at h
  split at h
  · cases h
  · split at h
    · split at h
      · have := Option.some.inj h; omega
      · cases h
    · split at h
      · have := Option.some.inj h; omega
      · cases h

theorem atoi_nat_le {id : String} {n : Nat} (h : atoi id = some (n : Int)) : n ≤ maxRowid := by
  unfold atoi at h
  split at h <;> exact atoiDigits_nat_le h

theorem digitsToNat_append (xs : List Char) (c : Char) :
    digitsToNat (xs ++ [c]) = 10 * digitsToNat xs + (c.toNat - 48) := by
  simp [digitsToNat, List.foldl_append]

theorem digitChar_spec (d : Nat) (h : d < 10) :
    (Nat.digitChar d).isDigit = true ∧ (Nat.digitChar d).toNat - 48 = d ∧
    Nat.digitChar d ≠ '+' ∧ Nat.digitChar d ≠ '-' := by
  interval_cases d <;> decide

theorem toDigitsCore_spec (fuel : Nat) : ∀ (n : Nat) (ds : List Char), n < fuel →
    ∃ c cs, Nat.toDigitsCore 10 fuel n ds = (c :: cs) ++ ds ∧ c ≠ '+' ∧ c ≠ '-' ∧
      (c :: cs).all Char.isDigit = true ∧ digitsToNat (c :: cs) = n := by
  induction fuel with
  | zero => intro n ds h; omega
  | succ fuel ih =>
    intro n ds h
    have hd := digitChar_spec (n % 10) (Nat.mod_lt _ (by decide))
    by_cases h0 : n / 10 = 0
    · refine ⟨Nat.digitChar (n % 10), [], ?_, hd.2.2.1, hd.2.2.2, ?_, ?_⟩
      · simp [Nat.toDigitsCore, h0]
      · simp [hd.1]
      · have : digitsToNat [Nat.digitChar (n % 10)] = (Nat.digitChar (n % 10)).toNat - 48 := by
          simp [digitsToNat]
        rw [this, hd.2.1]
        omega
    · obtain ⟨c, cs, he, hp, hm, hall, hval⟩ := ih (n / 10) (Nat.digitChar (n % 10) :: ds) (by omega)
      refine ⟨c, cs ++ [Nat.digitChar (n % 10)], ?_, hp, hm, ?_, ?_⟩
      · simp [Nat.toDigitsCore, h0, he]
      · rw [← List.cons_append, List.all_append, hall]
        simp [hd.1]
      · rw [← List.cons_append, digitsToNat_append, hval, hd.2.1]
        omega

theorem atoi_toString (n : Nat) (h : n ≤ maxRowid) : atoi (toString n) = some (n : Int) := by
  obtain ⟨c, cs, he, hp, hm, hall, hval⟩ := toDigitsCore_spec (n + 1) n [] (by omega)
  have hl : (toString n).toList = c :: cs := by
    show (Nat.toDigits 10 n) = c :: cs
    simpa [Nat.toDigits] using he
  unfold atoi
  rw [hl]
  split
  · rename_i heq; exact absurd (List.cons.inj heq).1 hp
  · rename_i heq; exact absurd (List.cons.inj heq).1 hm
  · simp only [atoiDigits, hall, hval]
    simp [h]

theorem selected_of_atoi (sqlite : String → Option (User → Bool)) (db : DB) {id : String}
    {n : Nat} (h : atoi id = some (n : Int)) :
    selected sqlite db id = db.rows.filter (fun u => decide (u.ID = n)) := by
  simp [selected, Where, h]

theorem First_isSome_of_mem (sqlite : String → Option (User → Bool)) (db : DB) {id : String}
    {r : User} (h : r ∈ selected sqlite db id) : ∃ u, First sqlite db id = some u := by
  apply Option.ne_none_iff_exists'.1
  rw [Ne, First_eq_none_iff]
  intro h0
  rw [h0] at h
  cases h

theorem fillTimestamps_ID (now : Time) (x : User) : (fillTimestamps now x).ID = x.ID := rfl



theorem Create_cases (db : DB) (now : Time) (x : User) :
    (x.ID = 0 ∧ db.nextID ≤ maxRowid ∧
      Create db now x = (db.push { fillTimestamps now x with ID := db.nextID },
        { fillTimestamps now x with ID := db.nextID })) ∨
    (x.ID ≠ 0 ∧ x.ID ≤ maxRowid ∧ (∀ r ∈ db.rows, r.ID ≠ x.ID) ∧
      Create db now x = (db.push (fillTimestamps now x), fillTimestamps now x)) ∨
    (maxRowid < x.ID ∧ Create db now x = (db, { fillTimestamps now x with ID := 0 })) ∨
    (x.ID ≤ maxRowid ∧ (x.ID = 0 → ¬ db.nextID ≤ maxRowid) ∧
      (x.ID ≠ 0 → ¬ ∀ r ∈ db.rows, r.ID ≠ x.ID) ∧
      Create db now x = (db, fillTimestamps now x)) := by
  unfold Create
  simp only [fillTimestamps_ID]
  by_cases h0 : x.ID = 0
  · by_cases h1 : db.nextID ≤ maxRowid
    · exact Or.inl ⟨h0, h1, by rw [if_pos h0, if_pos h1]⟩
    · exact Or.inr (Or.inr (Or.inr ⟨by omega, fun _ => h1, fun h => absurd h0 h,
        by rw [if_pos h0, if_neg h1]⟩))
  · by_cases hbig : maxRowid < x.ID
    · exact Or.inr (Or.inr (Or.inl ⟨hbig, by rw [if_neg h0, if_pos hbig]⟩))
    · by_cases h2 : (db.rows.all fun r => decide (r.ID ≠ x.ID)) = true
      · have h3 : ∀ r ∈ db.rows, r.ID ≠ x.ID := by
          simpa only [List.all_eq_true, decide_eq_true_eq] using h2
        exact Or.inr (Or.inl ⟨h0, by omega, h3, by rw [if_neg h0, if_neg hbig, if_pos h2]⟩)
      · refine Or.inr (Or.inr (Or.inr ⟨by omega, fun h => absurd h h0, fun _ h3 => h2 ?_,
          by rw [if_neg h0, if_neg hbig, if_neg h2]⟩))
        simpa only [List.all_eq_true, decide_eq_true_eq] using h3

theorem Create_ID_above_maxRowid (db : DB) (now : Time) (x : User) (h : maxRowid < x.ID) :
    (Create db now x).2.ID = 0 ∧ (Save db now x).2.ID = 0 := by
  have h0 : x.ID ≠ 0 := by omega
  constructor
  · unfold Create
    simp only [fillTimestamps_ID]
    rw [if_neg h0, if_pos h]
  · unfold Save
    simp only
    rw [if_neg h0, if_pos h]

theorem Create_rows {db : DB} {now : Time} {x r' : User}
    (h : r' ∈ (Create db now x).1.rows) :
    r' ∈ db.rows ∨ ∀ r ∈ db.rows, r.ID ≠ r'.ID := by
  rcases Create_cases db now x with ⟨_, _, hc⟩ | ⟨_, _, hf, hc⟩ | ⟨_, hc⟩ | ⟨_, _, _, hc⟩ <;>
    rw [hc] at h
  · simp only [DB.push, List.mem_append, List.mem_singleton] at h
    rcases h with h | rfl
    · exact Or.inl h
    · right
      intro r hr
      have := lt_nextID hr
      simp only
      omega
  · simp only [DB.push, List.mem_append, List.mem_singleton] at h
    rcases h with h | rfl
    · exact Or.inl h
    · exact Or.inr hf
  · exact Or.inl h
  · exact Or.inl h

theorem Create_keeps {db : DB} {now : Time} {x r : User} (h : r ∈ db.rows) :
    r ∈ (Create db now x).1.rows := by
  rcases Create_cases db now x with ⟨_, _, hc⟩ | ⟨_, _, _, hc⟩ | ⟨_, hc⟩ | ⟨_, _, _, hc⟩ <;>
    rw [hc] <;> simp [DB.push, h]

theorem Save_rows {db : DB} {now : Time} {x r' : User}
    (h : r' ∈ (Save db now x).1.rows) :
    r' ∈ db.rows ∨ r' = { x with UpdatedAt := now } ∨ ∀ r ∈ db.rows, r.ID ≠ r'.ID := by
  unfold Save at h
  simp only at h
  split_ifs at h with h0 h1 h2
  · rcases Create_rows h with h | h
    · exact Or.inl h
    · exact Or.inr (Or.inr h)
  · exact Or.inl h
  · simp only [List.mem_map] at h
    obtain ⟨r, hr, rfl⟩ := h
    split_ifs
    · exact Or.inr (Or.inl rfl)
    · exact Or.inl hr
  · rcases Create_rows h with h | h
    · exact Or.inl h
    · exact Or.inr (Or.inr h)

theorem Save_keeps_ids {db : DB} {now : Time} {x r : User} (h : r ∈ db.rows) :
    ∃ r' ∈ (Save db now x).1.rows, r'.ID = r.ID := by
  unfold Save
  simp only
  split_ifs with h0 h1 h2
  · exact ⟨r, Create_keeps h, rfl⟩
  · exact ⟨r, h, rfl⟩
  · refine ⟨_, List.mem_map.2 ⟨r, h, rfl⟩, ?_⟩
    split_ifs with h3
    · exact h3.symm
    · rfl
  · exact ⟨r, Create_keeps h, rfl⟩

theorem eq_of_ID_eq {rows : List User} (hpk : (rows.map User.ID).Nodup) {a b : User}
    (ha : a ∈ rows) (hb : b ∈ rows) (h : a.ID = b.ID) : a = b :=
  List.inj_on_of_nodup_map hpk ha hb h

theorem selected_push_fresh (sqlite : String → Option (User → Bool)) (db : DB) (r : User)
    {id : String} (hid : atoi id = some (r.ID : Int)) (hfresh : ∀ x ∈ db.rows, x.ID ≠ r.ID) :
    selected sqlite (db.push r) id = [r] := by
  rw [selected_of_atoi sqlite _ hid]
  simp only [DB.push, List.filter_append]
  have h1 : db.rows.filter (fun u => decide (u.ID = r.ID)) = [] := by
    rw [List.filter_eq_nil_iff]
    intro x hx
    simpa using hfresh x hx
  rw [h1]
  simp

theorem getUser_push_fresh (sqlite : String → Option (User → Bool)) (db : DB) (r : User)
    {id : String} (hid : atoi id = some (r.ID : Int)) (hfresh : ∀ x ∈ db.rows, x.ID ≠ r.ID) :
    getUser sqlite (db.push r) id = (db.push r, ⟨200, some (.user r)⟩) := by
  have hf : First sqlite (db.push r) id = some r := by
    rw [First_eq, selected_push_fresh sqlite db r hid hfresh]
    rfl
  unfold getUser
  rw [hf]
  rfl


/-! ## The primary key stays unique -/

theorem push_primaryKey {db : DB} {r : User} (hpk : (db.rows.map User.ID).Nodup)
    (hfresh : ∀ x ∈ db.rows, x.ID ≠ r.ID) : ((db.push r).rows.map User.ID).Nodup := by
  simp only [DB.push, List.map_append, List.map_cons, List.map_nil]
  refine List.nodup_append.2 ⟨hpk, List.nodup_singleton _, ?_⟩
  intro a ha hb
  obtain ⟨x, hx, rfl⟩ := List.mem_map.1 ha
  exact hfresh x hx (List.mem_singleton.1 hb)

theorem Create_primaryKey {db : DB} (now : Time) (x : User) (hpk : (db.rows.map User.ID).Nodup) :
    ((Create db now x).1.rows.map User.ID).Nodup := by
  rcases Create_cases db now x with ⟨_, _, hc⟩ | ⟨_, _, hf, hc⟩ | ⟨_, hc⟩ | ⟨_, _, _, hc⟩ <;>
    rw [hc]
  · apply push_primaryKey hpk
    intro r hr
    have := lt_nextID hr
    simp only
    omega
  · exact push_primaryKey hpk hf
  · exact hpk
  · exact hpk

theorem Save_primaryKey {db : DB} (now : Time) (x : User) (hpk : (db.rows.map User.ID).Nodup) :
    ((Save db now x).1.rows.map User.ID).Nodup := by
  unfold Save
  simp only
  split_ifs with h0 h1 h2
  · exact Create_primaryKey now x hpk
  · exact hpk
  · have : (db.rows.map fun r => if r.ID = x.ID then ({ x with UpdatedAt := now } : User) else r).map
        User.ID = db.rows.map User.ID := by
      rw [List.map_map]
      apply List.map_congr_left
      intro r _
      simp only [Function.comp]
      split_ifs with h
      · exact h.symm
      · rfl
    simp only [this]
    exact hpk
  · exact Create_primaryKey now _ hpk

theorem Delete_primaryKey {db : DB} (x : User) (hpk : (db.rows.map User.ID).Nodup) :
    ((Delete db x).rows.map User.ID).Nodup := by
  unfold Delete
  split_ifs
  · exact hpk
  · exact hpk.sublist ((List.filter_sublist _).map _)

/-- The primary key stays unique under every handler. -/
theorem handlers_keep_primaryKey (sqlite : String → Option (User → Bool)) (db : DB) (now : Time)
    (id : String) (body : Body) (hpk : (db.rows.map User.ID).Nodup) :
    ((createUser db now body).1.rows.map User.ID).Nodup ∧
    ((getUsers db).1.rows.map User.ID).Nodup ∧
    ((getUser sqlite db id).1.rows.map User.ID).Nodup ∧
    ((updateUser sqlite db now id body).1.rows.map User.ID).Nodup ∧
    ((deleteUser sqlite db id).1.rows.map User.ID).Nodup := by
  refine ⟨?_, hpk, ?_, ?_, ?_⟩
  · cases body with
    | rejected err bound => exact hpk
    | accepted bound => exact Create_primaryKey now _ hpk
  · unfold getUser
    cases First sqlite db id <;> exact hpk
  · unfold updateUser
    cases First sqlite db id with
    | none => exact hpk
    | some user =>
      cases body with
      | rejected err bound => exact hpk
      | accepted bound => exact Save_primaryKey now _ hpk
  · unfold deleteUser
    cases First sqlite db id with
    | none => exact hpk
    | some user => exact Delete_primaryKey user hpk

/-! ## The claims -/

/-- Lookups by a numeral: when `strconv.Atoi` reads the path id as a number
that is the id of no row, `getUser`, `updateUser` (for every clock reading and
every request body, decodable or not) and `deleteUser` leave the store alone
and answer 404 with the body `error: "User not found"`. -/
theorem notFound_of_numeral_without_record (sqlite : String → Option (User → Bool)) (db : DB)
    (id : String) (n : Int) (hid : atoi id = some n) (h : ∀ r ∈ db.rows, (r.ID : Int) ≠ n) :
    getUser sqlite db id = (db, ⟨404, some (.error "User not found")⟩) ∧
    (∀ (now : Time) (body : Body),
      updateUser sqlite db now id body = (db, ⟨404, some (.error "User not found")⟩)) ∧
    deleteUser sqlite db id = (db, ⟨404, some (.error "User not found")⟩) := by
  have hsel : selected sqlite db id = [] := by
    simp only [selected, Where, hid]
    rw [List.filter_eq_nil_iff]
    intro r hr
    simpa using h r hr
  have hf : First sqlite db id = none := (First_eq_none_iff sqlite db id).2 hsel
  refine ⟨?_, ?_, ?_⟩
  · simp [getUser, hf, userNotFound, JSON, StatusNotFound]
  · intro now body
    simp [updateUser, hf, userNotFound, JSON, StatusNotFound]
  · simp [deleteUser, hf, userNotFound, JSON, StatusNotFound]

/-- C2, the code at the failing input: no record has the id
`9223372036854775808` and `strconv.Atoi` does not read it (it is beyond `int`),
so the lookup hands it to SQLite as a condition, which holds of every row.
With record 1 in the store `getUser` answers 200 with record 1, `updateUser`
with the body `"not-json"` answers 400, and `deleteUser` answers 204 and
removes record 1; none of them answers 404. -/
theorem id_beyond_int_is_not_answered_404 :
    atoi "9223372036854775808" = none ∧
    (∀ r ∈ adaDB.rows, r.ID ≠ 9223372036854775808) ∧
    getUser literalRaw adaDB "9223372036854775808" = (adaDB, ⟨200, some (.user ada)⟩) ∧
    updateUser literalRaw adaDB 99 "9223372036854775808" notJsonBody
      = (adaDB,
          ⟨400, some (.error "json: cannot unmarshal string into Go value of type main.User")⟩) ∧
    deleteUser literalRaw adaDB "9223372036854775808" = (emptyDB, ⟨204, none⟩) := by
  decide

/-- C5: for every store and every request body that does not decode into a
`User`, `createUser` answers 400 with the decoder's message in the `error`
field, and that message is not empty; the body `"not-json"` is such a body. -/
theorem createUser_rejected_body (db : DB) (now : Time) (err : BindError) (bound : Patch) :
    createUser db now (.rejected err bound) = (db, ⟨400, some (.error err.Error)⟩) ∧
    err.Error ≠ "" ∧
    (createUser db now notJsonBody).2
      = ⟨400, some (.error "json: cannot unmarshal string into Go value of type main.User")⟩ :=
  ⟨rfl, Error_ne_empty err, rfl⟩

/-- C10: a 400 or 404 answer of `createUser`, `updateUser` or `deleteUser`
comes with an unchanged store; `updateUser` on an existing id with a body that
does not decode answers 400 and saves nothing, whatever fields the decoder had
already written into the loaded record; `getUsers` and `getUser` never change
the store. -/
theorem failed_and_read_requests_keep_store (sqlite : String → Option (User → Bool)) (db : DB)
    (now : Time) (id : String) (body : Body) :
    (((createUser db now body).2.status = 400 ∨ (createUser db now body).2.status = 404) →
      (createUser db now body).1 = db) ∧
    (((updateUser sqlite db now id body).2.status = 400 ∨
        (updateUser sqlite db now id body).2.status = 404) →
      (updateUser sqlite db now id body).1 = db) ∧
    (((deleteUser sqlite db id).2.status = 400 ∨ (deleteUser sqlite db id).2.status = 404) →
      (deleteUser sqlite db id).1 = db) ∧
    (∀ (user : User) (err : BindError) (bound : Patch), First sqlite db id = some user →
      updateUser sqlite db now id (.rejected err bound)
        = (db, ⟨400, some (.error err.Error)⟩)) ∧
    (getUsers db).1 = db ∧
    (getUser sqlite db id).1 = db := by
  refine ⟨?_, ?_, ?_, ?_, rfl, ?_⟩
  · cases body with
    | rejected err bound => intro _; rfl
    | accepted bound =>
      intro h
      simp [createUser, ShouldBindJSON, JSON, StatusOK] at h
  · unfold updateUser
    cases First sqlite db id with
    | none => intro _; rfl
    | some user =>
      cases body with
      | rejected err bound => intro _; rfl
      | accepted bound =>
        intro h
        simp [ShouldBindJSON, JSON, StatusOK] at h
  · unfold deleteUser
    cases First sqlite db id with
    | none => intro _; rfl
    | some user =>
      intro h
      simp [Status, StatusNoContent] at h
  · intro user err bound hf
    simp [updateUser, hf, ShouldBindJSON, JSON, StatusBadRequest]
  · unfold getUser
    cases First sqlite db id <;> rfl

/-- C3: for the id `n` of an existing record (`n` is not zero, the id gorm
refuses to delete by), `deleteUser` answers 204 with no body, and afterwards
`getUser` on the same id answers 404 and no record returned by `getUsers` has
id `n`. -/
theorem deleteUser_then_absent (sqlite : String → Option (User → Bool)) (db : DB) (id : String)
    (n : Nat) (hid : atoi id = some (n : Int)) (hn : n ≠ 0) (hex : ∃ r ∈ db.rows, r.ID = n) :
    (deleteUser sqlite db id).2 = ⟨204, none⟩ ∧
    getUser sqlite (deleteUser sqlite db id).1 id
      = ((deleteUser sqlite db id).1, ⟨404, some (.error "User not found")⟩) ∧
    ∃ us, (getUsers (deleteUser sqlite db id).1).2 = ⟨200, some (.users us)⟩ ∧
      ∀ u ∈ us, u.ID ≠ n := by
  obtain ⟨r, hr, hrn⟩ := hex
  have hsel := selected_of_atoi sqlite db hid
  obtain ⟨u, hu⟩ : ∃ u, First sqlite db id = some u := by
    apply @First_isSome_of_mem sqlite db id r
    rw [hsel]
    simp [List.mem_filter, hr, hrn]
  have hmem := First_mem sqlite db id u hu
  rw [hsel] at hmem
  have huid : u.ID = n := by simpa using (List.mem_filter.1 hmem).2
  have hle := atoi_nat_le hid
  have hdel : deleteUser sqlite db id
      = ({ db with rows := db.rows.filter (fun r => r.ID ≠ n) }, ⟨204, none⟩) := by
    have h1 : ¬ (n = 0 ∨ maxRowid < n) := by omega
    unfold deleteUser
    rw [hu]
    simp only [Delete, huid, if_neg h1]
    rfl
  rw [hdel]
  refine ⟨rfl, ?_, ?_⟩
  · have hnone : First sqlite { db with rows := db.rows.filter (fun r => r.ID ≠ n) } id = none := by
      rw [First_eq_none_iff, selected_of_atoi sqlite _ hid]
      simp [List.filter_filter]
    unfold getUser
    rw [hnone]
    rfl
  · refine ⟨Find { db with rows := db.rows.filter (fun r => r.ID ≠ n) }, rfl, ?_⟩
    intro v hv
    have := (mem_orderByID v _).1 hv
    simpa using (List.mem_filter.1 this).2

/-- Witness for C3: deleting record 1 from a store holding records 1 and 2. -/
theorem deleteUser_then_absent_witness :
    atoi "1" = some ((1 : Nat) : Int) ∧ (∃ r ∈ adaBobDB.rows, r.ID = 1) ∧
    ((deleteUser rejectRaw adaBobDB "1").2 = ⟨204, none⟩ ∧
    getUser rejectRaw (deleteUser rejectRaw adaBobDB "1").1 "1"
      = ((deleteUser rejectRaw adaBobDB "1").1, ⟨404, some (.error "User not found")⟩) ∧
    ∃ us, (getUsers (deleteUser rejectRaw adaBobDB "1").1).2 = ⟨200, some (.users us)⟩ ∧
      ∀ u ∈ us, u.ID ≠ 1) :=
  ⟨by decide, by decide,
    deleteUser_then_absent rejectRaw adaBobDB "1" 1 (by decide) (by decide) (by decide)⟩

/-- C4: for a record `u` found under the path id and every decodable PUT
body, `updateUser` answers 200, and the record then stored under that id has
the id of `u` and keeps the prior value of every field the body does not
carry: a body without `email` leaves the email as it was, and likewise for
`name`, `created_at` and `deleted_at` (`updated_at` is left out: the gateway
refreshes it). The store is a table with `id` as primary key. -/
theorem updateUser_keeps_absent_fields (sqlite : String → Option (User → Bool)) (db : DB)
    (now : Time) (id : String) (n : Nat) (p : Patch) (u : User)
    (hpk : (db.rows.map User.ID).Nodup) (hid : atoi id = some (n : Int))
    (hu : First sqlite db id = some u) :
    (updateUser sqlite db now id (.accepted p)).2.status = 200 ∧
    ∃ r, First sqlite (updateUser sqlite db now id (.accepted p)).1 id = some r ∧
      r.ID = u.ID ∧
      (p.Email = none → r.Email = u.Email) ∧
      (p.Name = none → r.Name = u.Name) ∧
      (p.CreatedAt = none → r.CreatedAt = u.CreatedAt) ∧
      (p.DeletedAt = none → r.DeletedAt = u.DeletedAt) := by
  have hmem := First_mem sqlite db id u hu
  rw [selected_of_atoi sqlite db hid] at hmem
  have hurows : u ∈ db.rows := (List.mem_filter.1 hmem).1
  have huid : u.ID = n := by simpa using (List.mem_filter.1 hmem).2
  have hupd : updateUser sqlite db now id (.accepted p)
      = ((Save db now (p.apply u)).1, ⟨200, some (.user (Save db now (p.apply u)).2)⟩) := by
    unfold updateUser
    rw [hu]
    rfl
  rw [hupd]
  refine ⟨rfl, ?_⟩
  obtain ⟨r0, hr0, hr0id⟩ := @Save_keeps_ids db now (p.apply u) u hurows
  obtain ⟨r, hr⟩ : ∃ r, First sqlite (Save db now (p.apply u)).1 id = some r := by
    apply @First_isSome_of_mem sqlite _ id r0
    rw [selected_of_atoi sqlite _ hid]
    simp [List.mem_filter, hr0, hr0id, huid]
  have hrmem := First_mem sqlite _ id r hr
  rw [selected_of_atoi sqlite _ hid] at hrmem
  have hrrows := (List.mem_filter.1 hrmem).1
  have hrid : r.ID = n := by simpa using (List.mem_filter.1 hrmem).2
  refine ⟨r, hr, by rw [hrid, huid], ?_⟩
  rcases Save_rows hrrows with h | h | h
  · have : r = u := eq_of_ID_eq hpk h hurows (by rw [hrid, huid])
    subst this
    exact ⟨fun _ => rfl, fun _ => rfl, fun _ => rfl, fun _ => rfl⟩
  · subst h
    refine ⟨?_, ?_, ?_, ?_⟩ <;> intro hp <;> simp [Patch.apply, hp]
  · exact absurd (by rw [hrid, huid]) (h u hurows)

/-- Witness for C4: renaming record 1 with a body that has no `email`. -/
theorem updateUser_keeps_absent_fields_witness :
    (adaBobDB.rows.map User.ID).Nodup ∧ atoi "1" = some ((1 : Nat) : Int) ∧
    First rejectRaw adaBobDB "1" = some ada ∧
    (updateUser rejectRaw adaBobDB 99 "1"
      (.accepted ⟨none, none, none, none, some "Ada L.", none⟩)).2.status = 200 ∧
    ∃ r, First rejectRaw (updateUser rejectRaw adaBobDB 99 "1"
        (.accepted ⟨none, none, none, none, some "Ada L.", none⟩)).1 "1" = some r ∧
      r.ID = ada.ID ∧ r.Email = ada.Email :=
  have h := updateUser_keeps_absent_fields rejectRaw adaBobDB 99 "1" 1
    ⟨none, none, none, none, some "Ada L.", none⟩ ada (by decide) (by decide) (by decide)
  ⟨by decide, by decide, by decide, h.1,
    h.2.elim fun r hr => ⟨r, hr.1, hr.2.1, hr.2.2.1 rfl⟩⟩

/-- Round trip of a body that leaves the id to the store: for a decodable
create body that carries no id and no `deleted_at`, in a store that still has
a rowid to give and with a clock that does not read the zero time,
`createUser` answers 200 with the inserted record `r`: its name and email are
those of the body, its id is the fresh `nextID` (not zero), `created_at` and
`updated_at` are set, `deleted_at` is absent, and `getUser` on the decimal
numeral of `r.ID` (and on any other string that `strconv.Atoi` reads as
`r.ID`) then answers 200 with `r`. -/
theorem createUser_getUser_roundtrip (db : DB) (now : Time) (p : Patch)
    (hnow : now ≠ 0) (hroom : db.nextID ≤ maxRowid)
    (hnoid : (p.apply User.zero).ID = 0) (hnodel : (p.apply User.zero).DeletedAt = none) :
    ∃ r : User, createUser db now (.accepted p) = (db.push r, ⟨200, some (.user r)⟩) ∧
      r.Name = (p.apply User.zero).Name ∧ r.Email = (p.apply User.zero).Email ∧
      r.ID = db.nextID ∧ r.ID ≠ 0 ∧ r.CreatedAt ≠ 0 ∧ r.UpdatedAt ≠ 0 ∧ r.DeletedAt = none ∧
      (∀ (sqlite : String → Option (User → Bool)),
        getUser sqlite (db.push r) (toString r.ID) = (db.push r, ⟨200, some (.user r)⟩)) ∧
      ∀ (sqlite : String → Option (User → Bool)) (id : String), atoi id = some (r.ID : Int) →
        getUser sqlite (db.push r) id = (db.push r, ⟨200, some (.user r)⟩) := by
  have hget : ∀ (sqlite : String → Option (User → Bool)) (id : String),
      atoi id = some (db.nextID : Int) →
      getUser sqlite (db.push { fillTimestamps now (p.apply User.zero) with ID := db.nextID }) id
        = (db.push { fillTimestamps now (p.apply User.zero) with ID := db.nextID },
            ⟨200, some (.user { fillTimestamps now (p.apply User.zero) with ID := db.nextID })⟩) := by
    intro sqlite id hid
    apply getUser_push_fresh sqlite db _ hid
    intro x hx
    have := lt_nextID hx
    simp only
    omega
  refine ⟨{ fillTimestamps now (p.apply User.zero) with ID := db.nextID }, ?_, rfl, rfl, rfl, ?_, ?_,
    ?_, hnodel, fun sqlite => hget sqlite _ (atoi_toString _ hroom), hget⟩
  · unfold createUser
    simp only [ShouldBindJSON, Create, fillTimestamps_ID, hnoid, if_true, if_pos hroom]
    rfl
  · simp [DB.nextID]
  · simp only [fillTimestamps]
    split_ifs with h
    · exact hnow
    · exact h
  · simp only [fillTimestamps]
    split_ifs with h
    · exact hnow
    · exact h

/-- The round trip at a concrete store: creating Bob next to record 1 and
reading id 2. -/
theorem createUser_getUser_roundtrip_witness :
    (5 : Time) ≠ 0 ∧ adaDB.nextID ≤ maxRowid ∧
    ((⟨none, none, none, none, some "Bob", some "bob@x.io"⟩ : Patch).apply User.zero).ID = 0 ∧
    ((⟨none, none, none, none, some "Bob", some "bob@x.io"⟩ : Patch).apply User.zero).DeletedAt
      = none ∧
    ∃ r : User, createUser adaDB 5 (.accepted ⟨none, none, none, none, some "Bob", some "bob@x.io"⟩)
        = (adaDB.push r, ⟨200, some (.user r)⟩) ∧
      r.Name = "Bob" ∧ r.Email = "bob@x.io" ∧ r.ID = 2 ∧
      getUser rejectRaw (adaDB.push r) "2" = (adaDB.push r, ⟨200, some (.user r)⟩) :=
  have h := createUser_getUser_roundtrip adaDB 5
    ⟨none, none, none, none, some "Bob", some "bob@x.io"⟩ (by decide) (by decide) (by decide)
    (by decide)
  ⟨by decide, by decide, by decide, by decide,
    h.elim fun r hr => ⟨r, hr.1, hr.2.1, hr.2.2.1, hr.2.2.2.1,
      hr.2.2.2.2.2.2.2.2.2 rejectRaw "2" (by rw [hr.2.2.2.1]; decide)⟩⟩

/-- C1, the code at the failing input: with record 1 (Ada) in the store, the
body `id: 1, name: "Eve", email: "eve@x.io"` decodes, the insert hits the
primary key and changes nothing, `createUser` drops the error and answers 200
with id 1 and name Eve, and `getUser` on id 1 returns Ada. -/
theorem createUser_getUser_id_collision :
    createUser adaDB 5 (.accepted ⟨some 1, none, none, none, some "Eve", some "eve@x.io"⟩)
      = (adaDB, ⟨200, some (.user ⟨1, 5, 5, none, "Eve", "eve@x.io"⟩)⟩) ∧
    getUser rejectRaw adaDB "1" = (adaDB, ⟨200, some (.user ⟨1, 10, 10, none, "Ada", "ada@x.io"⟩)⟩) := by
  decide

/-- Update under the path id: for a record `u` found under the non-zero path
id `n` and a decodable PUT body whose id is absent or equal to `n`,
`updateUser` answers 200 with the record of id `n` whose `updated_at` is the
current time and whose other fields are the body's values where the body
carries them and those of `u` otherwise; in the store exactly the row of id
`n` is replaced by that record, every other row is as before and no row is
added. -/
theorem updateUser_same_id (sqlite : String → Option (User → Bool)) (db : DB) (now : Time)
    (id : String) (n : Nat) (p : Patch) (u : User)
    (hid : atoi id = some (n : Int)) (hn : n ≠ 0) (hu : First sqlite db id = some u)
    (hp : p.ID = none ∨ p.ID = some n) :
    updateUser sqlite db now id (.accepted p)
      = ({ db with rows := db.rows.map (fun r => if r.ID = n then
              (⟨n, p.CreatedAt.getD u.CreatedAt, now, p.DeletedAt.getD u.DeletedAt,
                p.Name.getD u.Name, p.Email.getD u.Email⟩ : User) else r) },
          ⟨200, some (.user ⟨n, p.CreatedAt.getD u.CreatedAt, now, p.DeletedAt.getD u.DeletedAt,
                p.Name.getD u.Name, p.Email.getD u.Email⟩)⟩) := by
  have hmem := First_mem sqlite db id u hu
  rw [selected_of_atoi sqlite db hid] at hmem
  have hurows : u ∈ db.rows := (List.mem_filter.1 hmem).1
  have huid : u.ID = n := by simpa using (List.mem_filter.1 hmem).2
  have hle := atoi_nat_le hid
  have hpid : (p.apply u).ID = n := by
    rcases hp with h | h <;> simp [Patch.apply, h, huid]
  have hany : db.rows.any (fun r => decide (r.ID = n)) = true := by
    simp only [List.any_eq_true, decide_eq_true_eq]
    exact ⟨u, hurows, huid⟩
  unfold updateUser
  rw [hu]
  simp only [ShouldBindJSON, Save, hpid, if_neg hn, if_neg (not_lt.2 hle), hany, if_true]
  simp [Patch.apply, JSON, StatusOK, hpid]

/-- The update under the path id at a concrete store: renaming record 1 with a
body that has no id. -/
theorem updateUser_same_id_witness :
    atoi "1" = some ((1 : Nat) : Int) ∧ (1 : Nat) ≠ 0 ∧ First rejectRaw adaBobDB "1" = some ada ∧
    updateUser rejectRaw adaBobDB 99 "1" (.accepted ⟨none, none, none, none, some "Ada L.", none⟩)
      = ({ adaBobDB with rows := adaBobDB.rows.map (fun r => if r.ID = 1 then
              (⟨1, 10, 99, none, "Ada L.", "ada@x.io"⟩ : User) else r) },
          ⟨200, some (.user ⟨1, 10, 99, none, "Ada L.", "ada@x.io"⟩)⟩) :=
  ⟨by decide, by decide, by decide,
    updateUser_same_id rejectRaw adaBobDB 99 "1" 1 ⟨none, none, none, none, some "Ada L.", none⟩ ada
      (by decide) (by decide) (by decide) (Or.inl rfl)⟩

/-- C7, the code at the failing input: with records 1 (Ada) and 2 (Bob) in the
store, PUT on id 1 with the body `id: 2, name: "Mallory"` finds record 1,
lets the body overwrite its id, and saves under id 2: the answer is 200 with a
record of id 2, the row of Bob is overwritten and the row of Ada is as it
was. -/
theorem updateUser_body_id_overwrites_other_record :
    First rejectRaw adaBobDB "1" = some ada ∧
    updateUser rejectRaw adaBobDB 99 "1" (.accepted ⟨some 2, none, none, none, some "Mallory", none⟩)
      = (⟨[ada, ⟨2, 10, 99, none, "Mallory", "ada@x.io"⟩], 0, false⟩,
          ⟨200, some (.user ⟨2, 10, 99, none, "Mallory", "ada@x.io"⟩)⟩) := by
  decide

/-- C8, the code at the failing input: `deleteUser` on id 1 answers 204 with
no body and the row of record 1 is gone from the table; no `deleted_at` is
set on anything. -/
theorem deleteUser_removes_row :
    deleteUser rejectRaw adaBobDB "1" = (⟨[bob], 0, false⟩, ⟨204, none⟩) := by
  decide

/-- C9, the code at the failing input: a record created with a `deleted_at`
in the body is stored with it, and both `getUsers` and `getUser` on its id
return it with status 200. -/
theorem record_with_deleted_at_is_returned :
    createUser emptyDB 100 (.accepted ⟨none, none, none, some (some 50), some "Ghost", none⟩)
      = (⟨[⟨1, 100, 100, some 50, "Ghost", ""⟩], 0, false⟩,
          ⟨200, some (.user ⟨1, 100, 100, some 50, "Ghost", ""⟩)⟩) ∧
    getUsers ⟨[⟨1, 100, 100, some 50, "Ghost", ""⟩], 0, false⟩
      = (⟨[⟨1, 100, 100, some 50, "Ghost", ""⟩], 0, false⟩,
          ⟨200, some (.users [⟨1, 100, 100, some 50, "Ghost", ""⟩])⟩) ∧
    getUser rejectRaw ⟨[⟨1, 100, 100, some 50, "Ghost", ""⟩], 0, false⟩ "1"
      = (⟨[⟨1, 100, 100, some 50, "Ghost", ""⟩], 0, false⟩,
          ⟨200, some (.user ⟨1, 100, 100, some 50, "Ghost", ""⟩)⟩) := by
  decide

end GinCrud
